import Mathlib

/-!
Verification development for the go-ai-types library and its self-healing
repair subsystem specification.

The first part embeds, as Lean definitions, the Go code of the repository:
token accounting (pkg/types/token.go), streaming chunks (stream types),
tool-choice fields of chat requests (chat types), and the JSON-schema data
model (pkg/types/function.go).  Go `int` is embedded as Lean `Int`, Go
`string` as `String`, Go slices as `List`, and a decoded Go `interface` value
holding JSON data as the inductive type `GoJson` below.

The second part models, from the specification document, the self-healing
repair subsystem (Schema Validator, Prompt Builder, Repair Orchestrator),
whose implementation is planned but not present in the repository sources.
-/

namespace GoAiTypes

/-- A dynamic JSON-like value, the embedding of a decoded Go interface value
(the type that Go declares as plain `interface`).  Numbers are embedded as
integers, which suffices for every structural property considered here. -/
inductive GoJson where
  | str (s : String)
  | num (n : Int)
  | bool (b : Bool)
  | null
  | arr (elems : List GoJson)
  | obj (fields : List (String × GoJson))

/-! Embeddings from pkg/types/token.go -/

/-- Embedding of `TokenLimit` from pkg/types/token.go. -/
structure TokenLimit where
  Model : String
  MaxTokens : Int
  MaxInputTokens : Int
  MaxOutputTokens : Int
  MaxContextTokens : Int
deriving DecidableEq, Repr

/-- Embedding of `TokenLimit.CanAccommodate`: checks the given token counts
against the three limit fields, each limit applying only when positive. -/
def TokenLimit.CanAccommodate (l : TokenLimit) (promptTokens completionTokens : Int) : Bool :=
  let totalNeeded := promptTokens + completionTokens
  if l.MaxTokens > 0 && totalNeeded > l.MaxTokens then
    false
  else if l.MaxInputTokens > 0 && promptTokens > l.MaxInputTokens then
    false
  else if l.MaxOutputTokens > 0 && completionTokens > l.MaxOutputTokens then
    false
  else
    true

/-- Embedding of `TokenBudget` from pkg/types/token.go. -/
structure TokenBudget where
  TotalBudget : Int
  ReservedForOutput : Int
  Used : Int
deriving DecidableEq, Repr

/-- Embedding of `TokenBudget.Remaining`: budget minus used minus reserved,
clamped at zero. -/
def TokenBudget.Remaining (b : TokenBudget) : Int :=
  let remaining := b.TotalBudget - b.Used - b.ReservedForOutput
  if remaining < 0 then 0 else remaining

/-- Embedding of `TokenBudget.CanUse`. -/
def TokenBudget.CanUse (b : TokenBudget) (tokens : Int) : Bool :=
  b.Remaining ≥ tokens

/-- Embedding of `TokenBudget.Use`.  The Go method mutates the receiver and
returns a Bool; the embedding returns the Bool paired with the state of the
receiver after the call. -/
def TokenBudget.Use (b : TokenBudget) (tokens : Int) : Bool × TokenBudget :=
  if !(b.CanUse tokens) then
    (false, b)
  else
    (true, { b with Used := b.Used + tokens })

/-! Embeddings of the stream chunk types -/

/-- Embedding of the `FinishReasonNull` constant (the Go `FinishReason` type
is a string type; it is embedded as `String`). -/
def FinishReasonNull : String := "null"

/-- Embedding of `MessageDelta` (streaming): incremental message changes. -/
structure MessageDelta where
  Role : String
  Content : String
deriving DecidableEq, Repr

/-- Embedding of `StreamChoice`: a choice in a streaming response.  The
`FinishReason` field is the Go string-typed finish reason; empty string means
streaming is still in progress. -/
structure StreamChoice where
  Index : Int
  Delta : Option MessageDelta
  FinishReason : String
deriving DecidableEq, Repr

/-- Embedding of `ChatStreamChunk`: a chunk in a chat completion stream. -/
structure ChatStreamChunk where
  ID : String
  Object : String
  Created : Int
  Model : String
  Choices : List StreamChoice
  SystemFingerprint : String
deriving DecidableEq, Repr

/-- Embedding of `ChatStreamChunk.IsComplete`: returns false on an empty
choice list, otherwise scans the choices for one whose finish reason is
neither empty nor `FinishReasonNull`. -/
def ChatStreamChunk.IsComplete (c : ChatStreamChunk) : Bool :=
  if c.Choices.length = 0 then
    false
  else
    c.Choices.any (fun choice =>
      choice.FinishReason ≠ "" && choice.FinishReason ≠ FinishReasonNull)

/-! Embeddings of the chat request types and tool-choice unions -/

/-- Embedding of the Go string type `ToolChoice` from pkg/types/function.go. -/
abbrev ToolChoice := String

/-- Embedding of the `ToolChoice` constants from pkg/types/function.go. -/
def ToolChoiceNone : ToolChoice := "none"

/-- Embedding of `ToolChoiceAuto`. -/
def ToolChoiceAuto : ToolChoice := "auto"

/-- Embedding of `ToolChoiceRequired`. -/
def ToolChoiceRequired : ToolChoice := "required"

/-- Embedding of `ToolChoiceAny`. -/
def ToolChoiceAny : ToolChoice := "any"

/-- Embedding of the method `ToolChoice.String`. -/
def ToolChoice.String (t : ToolChoice) : String := t

/-- Embedding of `FunctionDefinition` from pkg/types/function.go.  The Go
`Parameters` field is an `interface` holding an arbitrary JSON schema value. -/
structure FunctionDefinition where
  Name : String
  Description : String
  Parameters : Option GoJson
  Strict : Bool

/-- Embedding of `ToolDefinition` from pkg/types/function.go.  The Go field
`Type` is renamed `ToolKind` because `Type` is reserved in Lean. -/
structure ToolDefinition where
  ToolKind : String
  Function : FunctionDefinition

/-- Placeholder embedding of the message DTO: the file defining the Go
`Message` type is not among the repository sources; only the presence of the
`Messages` field on a chat request matters for the claims considered here. -/
structure Message where
  Role : String
  Content : String

/-- Embedding of `ChatRequest` from the chat types file, restricted to its
structurally relevant fields.  The dynamic fields `ToolChoice` and
`FunctionCall` are declared in Go as `interface` values with the comment
"Can be string or object"; their embedding is therefore `Option GoJson`,
admitting any decoded JSON value (`none` embeds the absent/nil case).  The
float-valued tuning knobs (Temperature, TopP, penalties, LogitBias), the
response-format, seed, log-probability and metadata fields are omitted: no
claim concerns them and they play no role in any operation embedded here. -/
structure ChatRequest where
  Model : String
  Messages : List Message
  MaxTokens : Int
  N : Int
  Stream : Bool
  Stop : List String
  User : String
  Tools : List ToolDefinition
  ToolChoice : Option GoJson
  Functions : List FunctionDefinition
  FunctionCall : Option GoJson

/-- Embedding of `ChatRequest.WithToolChoice`: the Go method assigns
`choice.String()` (a plain Go string) into the dynamic `ToolChoice` field and
returns the receiver. -/
def ChatRequest.WithToolChoice (r : ChatRequest) (choice : GoAiTypes.ToolChoice) :
    ChatRequest :=
  { r with ToolChoice := some (GoJson.str (GoAiTypes.ToolChoice.String choice)) }

/-- The representation claimed by the specification for tool-choice-like
union fields: a tagged variant with exactly a string case and an object case.
A dynamic value satisfies this predicate precisely when it lies in one of the
two claimed cases. -/
def TaggedStringOrObject (v : GoJson) : Prop :=
  (∃ s, v = GoJson.str s) ∨ (∃ fields, v = GoJson.obj fields)

/-- A concrete chat request whose dynamic `ToolChoice` field holds the JSON
number 42: well-typed according to the embedded field type taken from the
source declaration. -/
def toolChoiceNumRequest : ChatRequest :=
  { Model := "gpt-4"
    Messages := []
    MaxTokens := 0
    N := 0
    Stream := false
    Stop := []
    User := ""
    Tools := []
    ToolChoice := some (GoJson.num 42)
    Functions := []
    FunctionCall := none }

/-! The self-healing repair subsystem

The repair subsystem (Schema Validator, Prompt Builder, Repair Orchestrator)
is specified in the design document and planned in the project plan, but its
implementation files (pkg/validators/schema.go and pkg/repair) are not among
the repository sources.  The definitions below are therefore modelled from
the specification text. -/

/-- Modelled from the spec: `SchemaNode`, the declarative structural shape —
kind (object, array, string, number, boolean, enum), child property shapes
(name-keyed, with the declaration order of the property list giving the
declared-property traversal order), required-property names, array item
shape, and the additional-fields-allowed marker described by the validator
contract (the source type `JSONSchema` carries it as `AdditionalProperties`).
Enum members are modelled as strings, matching the source constructor
`NewEnumSchema`, which declares enum schemas with underlying type string. -/
inductive SchemaNode where
  | object (properties : List (String × SchemaNode)) (required : List String)
      (additionalAllowed : Bool)
  | array (items : SchemaNode)
  | string
  | number
  | boolean
  | enum (allowed : List String)

/-- Modelled from the spec: the kind of a `ValidationViolation`, one of
MissingField, WrongType, MalformedStructure, UnexpectedAdditionalField. -/
inductive ViolationKind where
  | MissingField
  | WrongType
  | MalformedStructure
  | UnexpectedAdditionalField
deriving DecidableEq, Repr

/-- Modelled from the spec: one step of a violation path — a property name
or an array index. -/
inductive PathStep where
  | field (name : String)
  | index (i : Nat)
deriving DecidableEq, Repr

/-- Modelled from the spec: `ValidationViolation` — path (ordered sequence
of property and index steps from the root), kind, human-readable message. -/
structure ValidationViolation where
  path : List PathStep
  kind : ViolationKind
  message : String
deriving DecidableEq, Repr

/-- The JSON type name of a dynamic value, used in violation messages. -/
def GoJson.typeName : GoJson → String
  | .str _ => "string"
  | .num _ => "number"
  | .bool _ => "boolean"
  | .null => "null"
  | .arr _ => "array"
  | .obj _ => "object"

/-- Modelled from the spec: a WrongType violation with a deterministic
message naming the expected and the found JSON type. -/
def wrongTypeViolation (path : List PathStep) (expected : String) (got : GoJson) :
    ValidationViolation :=
  { path := path, kind := .WrongType
    message := "expected " ++ expected ++ " but found " ++ got.typeName }

/-- Modelled from the spec: a MissingField violation for a required field. -/
def missingFieldViolation (path : List PathStep) (name : String) : ValidationViolation :=
  { path := path, kind := .MissingField
    message := "required field " ++ name ++ " is missing" }

/-- Modelled from the spec: UnexpectedAdditionalField violations for the
candidate fields not declared in the schema.  The undeclared names carry no
declared order, so they are emitted sorted by name, keeping the violation
ordering independent of the serialization order of the candidate output. -/
def extraFieldViolations (path : List PathStep) (declared : List String)
    (fields : List (String × GoJson)) : List ValidationViolation :=
  (((fields.map Prod.fst).filter (fun n => !(declared.contains n))).mergeSort).map
    (fun n =>
      { path := path ++ [PathStep.field n], kind := ViolationKind.UnexpectedAdditionalField
        message := "field " ++ n ++ " is not declared in the schema" })

mutual

/-- Modelled from the spec: the Schema Validator contract
Validate(schema, output) returning the ordered violation sequence (empty
sequence means valid).  The traversal is depth-first in the declared
property order of the schema; the candidate object is consulted only through
name lookup, never through its own key order. -/
def Validate (path : List PathStep) (schema : SchemaNode) (output : GoJson) :
    List ValidationViolation :=
  match schema, output with
  | .object props required addl, .obj fields =>
      validateProperties path props required fields ++
        (if addl then [] else extraFieldViolations path (props.map Prod.fst) fields)
  | .object _ _ _, v => [wrongTypeViolation path "object" v]
  | .array items, .arr elems => validateItems path items elems 0
  | .array _, v => [wrongTypeViolation path "array" v]
  | .string, .str _ => []
  | .string, v => [wrongTypeViolation path "string" v]
  | .number, .num _ => []
  | .number, v => [wrongTypeViolation path "number" v]
  | .boolean, .bool _ => []
  | .boolean, v => [wrongTypeViolation path "boolean" v]
  | .enum allowed, .str s =>
      if allowed.contains s then []
      else [{ path := path, kind := .WrongType
              message := "value " ++ s ++ " is not one of the enum values" }]
  | .enum _, v => [wrongTypeViolation path "enum" v]
termination_by (sizeOf schema, sizeOf output)

/-- Modelled from the spec: depth-first traversal of the declared properties
of an object schema, in declaration order.  A declared property present in
the candidate is validated recursively; an absent one yields a MissingField
violation exactly when it is required. -/
def validateProperties (path : List PathStep) (props : List (String × SchemaNode))
    (required : List String) (fields : List (String × GoJson)) :
    List ValidationViolation :=
  match props with
  | [] => []
  | (name, child) :: rest =>
      (match List.lookup name fields with
       | some value => Validate (path ++ [PathStep.field name]) child value
       | none =>
           if required.contains name then
             [missingFieldViolation (path ++ [PathStep.field name]) name]
           else [])
      ++ validateProperties path rest required fields
termination_by (sizeOf props, sizeOf fields)

/-- Modelled from the spec: validation of array elements against the item
shape, in element order, with index path steps. -/
def validateItems (path : List PathStep) (items : SchemaNode) (elems : List GoJson)
    (startIndex : Nat) : List ValidationViolation :=
  match elems with
  | [] => []
  | x :: rest =>
      Validate (path ++ [PathStep.index startIndex]) items x ++
        validateItems path items rest (startIndex + 1)
termination_by (sizeOf items, sizeOf elems)

end

/-- Modelled from the spec: rendering of one violation path step. -/
def renderPathStep : PathStep → String
  | .field name => "." ++ name
  | .index i => "[" ++ toString i ++ "]"

/-- Modelled from the spec: rendering of a violation path from the root. -/
def renderPath (path : List PathStep) : String :=
  "$" ++ String.join (path.map renderPathStep)

/-- Modelled from the spec: rendering of a violation kind. -/
def ViolationKind.render : ViolationKind → String
  | .MissingField => "MissingField"
  | .WrongType => "WrongType"
  | .MalformedStructure => "MalformedStructure"
  | .UnexpectedAdditionalField => "UnexpectedAdditionalField"

/-- Modelled from the spec: rendering of one violation — path, kind and
message, all verbatim. -/
def renderViolation (v : ValidationViolation) : String :=
  renderPath v.path ++ " " ++ v.kind.render ++ ": " ++ v.message

/-- Modelled from the spec: rendering of the full violation list, one
violation per line. -/
def renderViolationList : List ValidationViolation → String
  | [] => ""
  | v :: rest => renderViolation v ++ "\n" ++ renderViolationList rest

mutual

/-- Modelled from the spec: a deterministic serialized form of the schema,
included in repair prompts. -/
def renderSchema : SchemaNode → String
  | .object props required addl =>
      "object(" ++ renderSchemaProperties props ++ "; required: " ++
        String.intercalate " " required ++
        (if addl then "; additional allowed" else "; additional disallowed") ++ ")"
  | .array items => "array(" ++ renderSchema items ++ ")"
  | .string => "string"
  | .number => "number"
  | .boolean => "boolean"
  | .enum allowed => "enum(" ++ String.intercalate " " allowed ++ ")"
termination_by s => sizeOf s

/-- Modelled from the spec: serialized forms of the declared properties, in
declaration order. -/
def renderSchemaProperties : List (String × SchemaNode) → String
  | [] => ""
  | (name, child) :: rest =>
      name ++ ": " ++ renderSchema child ++ " " ++ renderSchemaProperties rest
termination_by props => sizeOf props

end

/-- Modelled from the spec: the explicit instruction block constraining the
model to output only corrected structured data, not to introduce fields
absent from the schema, not to alter values beyond what the violations
require, and not to add conversational text. -/
def repairInstructions : String :=
  "Output only the corrected structured data. " ++
  "Do not introduce fields absent from the schema. " ++
  "Do not alter field values beyond what is needed to satisfy the violations. " ++
  "Do not add exploratory or conversational text."

/-- Modelled from the spec: the Prompt Builder contract
BuildRepairPrompt(schema, invalidOutput, violations) — deterministic and
pure, literally including the serialized schema, the invalid output verbatim
and the full violation list. -/
def BuildRepairPrompt (schema : SchemaNode) (invalidOutput : String)
    (violations : List ValidationViolation) : String :=
  repairInstructions ++ "\n\nSchema:\n" ++ renderSchema schema ++
    "\n\nInvalid output:\n" ++ invalidOutput ++
    "\n\nViolations:\n" ++ renderViolationList violations

/-- Modelled from the spec: `RepairConfig` with enabled flag and the attempt
bound.  The bound is a natural number; the configuration validator contract
restricting it to at most three is a separate caller-side concern. -/
structure RepairConfig where
  enabled : Bool
  maxAttempts : Nat
deriving DecidableEq, Repr

/-- Modelled from the spec: `RepairAttempt` — 1-based attempt number, the
violations observed before the attempt, the prompt text, the raw candidate
output returned by the model collaborator, and the succeeded flag (set
retroactively when the following validation passes). -/
structure RepairAttempt where
  attemptNumber : Nat
  violationsBeforeAttempt : List ValidationViolation
  promptText : String
  candidateOutput : String
  succeeded : Bool
deriving DecidableEq, Repr

/-- Modelled from the spec: `RepairResult` — repaired flag, ordered attempt
history, final output text. -/
structure RepairResult where
  repaired : Bool
  attempts : List RepairAttempt
  finalOutput : String
deriving DecidableEq, Repr

/-- Modelled from the spec: the three repair failure kinds. -/
inductive RepairErrorKind where
  | RepairDisabled
  | RepairExhausted
  | RepairInvalidOutput
deriving DecidableEq, Repr

/-- Modelled from the spec: `RepairError` — a tagged failure carrying the
last known invalid output and the attempt history accumulated so far. -/
structure RepairError where
  kind : RepairErrorKind
  lastInvalidOutput : String
  attempts : List RepairAttempt
deriving DecidableEq, Repr

/-- Modelled from the spec: the terminal result of a repair session, either
a `RepairResult` or a `RepairError`. -/
inductive RepairOutcome where
  | success (result : RepairResult)
  | failure (e : RepairError)
deriving DecidableEq, Repr

/-- Modelled from the spec: the retroactive update of the succeeded flag on
the most recent attempt once validation passes. -/
def markLastSucceeded : List RepairAttempt → List RepairAttempt
  | [] => []
  | [a] => [{ a with succeeded := true }]
  | a :: rest => a :: markLastSucceeded rest

/-- Modelled from the spec: the Repair Orchestrator loop
(Validating, CheckEnabled, CheckBudget, Repairing).  The model collaborator
is `modelCaller` (prompt text to raw output) and `parseOutput` embeds the
serialization-level parse of raw output into a candidate structure, `none`
meaning unparseable.  The result is paired with the number of
model-collaborator invocations performed; the logger collaborator is elided
since it does not influence the returned outcome. -/
def RepairLoop (schema : SchemaNode) (config : RepairConfig)
    (modelCaller : String → String) (parseOutput : String → Option GoJson)
    (candidate : GoJson) (candidateText : String)
    (attempts : List RepairAttempt) (attemptCount : Nat) : RepairOutcome × Nat :=
  let violations := Validate [] schema candidate
  if violations.isEmpty then
    (.success { repaired := decide (0 < attemptCount)
                attempts := markLastSucceeded attempts
                finalOutput := candidateText }, 0)
  else if !config.enabled then
    (.failure { kind := .RepairDisabled, lastInvalidOutput := candidateText
                attempts := attempts }, 0)
  else if _h : attemptCount < config.maxAttempts then
    let promptText := BuildRepairPrompt schema candidateText violations
    let raw := modelCaller promptText
    let attempt : RepairAttempt :=
      { attemptNumber := attemptCount + 1, violationsBeforeAttempt := violations
        promptText := promptText, candidateOutput := raw, succeeded := false }
    match parseOutput raw with
    | none =>
        (.failure { kind := .RepairInvalidOutput, lastInvalidOutput := raw
                    attempts := attempts ++ [attempt] }, 1)
    | some newCandidate =>
        let result := RepairLoop schema config modelCaller parseOutput
          newCandidate raw (attempts ++ [attempt]) (attemptCount + 1)
        (result.1, result.2 + 1)
  else
    (.failure { kind := .RepairExhausted, lastInvalidOutput := candidateText
                attempts := attempts }, 0)
termination_by config.maxAttempts - attemptCount
decreasing_by omega

/-- Modelled from the spec: the Repair Orchestrator contract
AttemptRepair(schema, output, config, modelCaller) starting a fresh session
with empty attempt history.  The candidate is supplied both as the parsed
structure and as its raw text; the second component of the result counts the
model-collaborator invocations of the session. -/
def AttemptRepair (schema : SchemaNode) (config : RepairConfig)
    (modelCaller : String → String) (parseOutput : String → Option GoJson)
    (output : GoJson) (outputText : String) : RepairOutcome × Nat :=
  RepairLoop schema config modelCaller parseOutput output outputText [] 0

mutual

/-- Two dynamic JSON values that denote the same data but may have been
serialized with different object key orders: atoms must be identical, arrays
must agree pointwise (array order is data, not serialization), and object
field lists must be permutations of pointwise-equivalent field lists, with
duplicate-free keys.  This is the "same output, different serialization"
relation used to state that violation ordering is schema-driven. -/
inductive JsonKeyEquiv : GoJson → GoJson → Prop where
  | str (s : String) : JsonKeyEquiv (.str s) (.str s)
  | num (n : Int) : JsonKeyEquiv (.num n) (.num n)
  | bool (b : Bool) : JsonKeyEquiv (.bool b) (.bool b)
  | null : JsonKeyEquiv .null .null
  | arr {xs ys : List GoJson} : JsonListEquiv xs ys →
      JsonKeyEquiv (.arr xs) (.arr ys)
  | obj {fs mid gs : List (String × GoJson)} :
      JsonFieldsEquiv fs mid →
      mid.Perm gs →
      (fs.map Prod.fst).Nodup →
      JsonKeyEquiv (.obj fs) (.obj gs)

/-- Pointwise `JsonKeyEquiv` on element lists (array contents). -/
inductive JsonListEquiv : List GoJson → List GoJson → Prop where
  | nil : JsonListEquiv [] []
  | cons {x y : GoJson} {xs ys : List GoJson} : JsonKeyEquiv x y →
      JsonListEquiv xs ys → JsonListEquiv (x :: xs) (y :: ys)

/-- Pointwise equivalence of object field lists: equal names in the same
positions, equivalent values. -/
inductive JsonFieldsEquiv :
    List (String × GoJson) → List (String × GoJson) → Prop where
  | nil : JsonFieldsEquiv [] []
  | cons {n : String} {v w : GoJson} {fs gs : List (String × GoJson)} :
      JsonKeyEquiv v w → JsonFieldsEquiv fs gs →
      JsonFieldsEquiv ((n, v) :: fs) ((n, w) :: gs)

end

/-- Verbatim containment of one string in another, stated on the underlying
character lists. -/
def ContainsStr (s sub : String) : Prop :=
  ∃ pre post : List Char, s.data = pre ++ sub.data ++ post

/-! Theorems settling the claims -/

/-- C10: for every token limit and all prompt and completion counts,
CanAccommodate returns true exactly when each of the three limits is
nonpositive or accommodates its count; in particular all-zero limits impose
no bound. -/
theorem TokenLimit_CanAccommodate_spec (l : TokenLimit) (p c : Int) :
    (l.CanAccommodate p c = true ↔
      ((l.MaxTokens ≤ 0 ∨ p + c ≤ l.MaxTokens) ∧
       (l.MaxInputTokens ≤ 0 ∨ p ≤ l.MaxInputTokens) ∧
       (l.MaxOutputTokens ≤ 0 ∨ c ≤ l.MaxOutputTokens))) ∧
    (l.MaxTokens = 0 → l.MaxInputTokens = 0 → l.MaxOutputTokens = 0 →
      l.CanAccommodate p c = true) := by
  constructor
  · unfold TokenLimit.CanAccommodate
    repeat' split
    all_goals simp_all
    all_goals omega
  · intro h1 h2 h3
    unfold TokenLimit.CanAccommodate
    simp [h1, h2, h3]

/-- C10 witness: with all three limits zero, any pair of counts is
accommodated. -/
theorem TokenLimit_CanAccommodate_spec_witness :
    ({ Model := "m", MaxTokens := 0, MaxInputTokens := 0, MaxOutputTokens := 0,
       MaxContextTokens := 0 } : TokenLimit).CanAccommodate 7 9 = true :=
  (TokenLimit_CanAccommodate_spec _ 7 9).2 rfl rfl rfl

/-- C8: TokenBudget.Use succeeds exactly when the requested count is within
the remaining budget; on success the used count grows by exactly the
request, on failure the budget is unchanged, and the remaining count is
never negative. -/
theorem TokenBudget_Use_spec (b : TokenBudget) (n : Int) :
    ((b.Use n).1 = true ↔ n ≤ b.Remaining) ∧
    ((b.Use n).1 = true → (b.Use n).2.Used = b.Used + n) ∧
    ((b.Use n).1 = false → (b.Use n).2 = b) ∧
    0 ≤ b.Remaining := by
  refine ⟨?_, ?_, ?_, ?_⟩
  · unfold TokenBudget.Use TokenBudget.CanUse
    by_cases hc : n ≤ b.Remaining <;> simp [hc, ge_iff_le]
  · unfold TokenBudget.Use TokenBudget.CanUse
    by_cases hc : n ≤ b.Remaining <;> simp [hc, ge_iff_le]
  · unfold TokenBudget.Use TokenBudget.CanUse
    by_cases hc : n ≤ b.Remaining <;> simp [hc, ge_iff_le]
  · unfold TokenBudget.Remaining
    dsimp only
    split <;> omega

/-- C8 witness: a concrete budget of 100 with 10 reserved accepts a request
of 5 tokens and records exactly 5 used. -/
theorem TokenBudget_Use_spec_witness :
    ((({ TotalBudget := 100, ReservedForOutput := 10, Used := 0 } : TokenBudget).Use 5).1
        = true) ∧
    ((({ TotalBudget := 100, ReservedForOutput := 10, Used := 0 } : TokenBudget).Use 5).2.Used
        = 0 + 5) := by
  have h := TokenBudget_Use_spec
    ({ TotalBudget := 100, ReservedForOutput := 10, Used := 0 } : TokenBudget) 5
  have ht := h.1.mpr (by unfold TokenBudget.Remaining; decide)
  exact ⟨ht, h.2.1 ht⟩

/-- C9: IsComplete is true exactly when some choice carries a finish reason
that is neither empty nor the null finish reason; in particular it is false
on an empty choice list. -/
theorem ChatStreamChunk_IsComplete_spec (c : ChatStreamChunk) :
    (c.IsComplete = true ↔
      ∃ choice ∈ c.Choices,
        choice.FinishReason ≠ "" ∧ choice.FinishReason ≠ FinishReasonNull) ∧
    (c.Choices = [] → c.IsComplete = false) := by
  constructor
  · unfold ChatStreamChunk.IsComplete
    split
    · rename_i hlen
      rw [List.length_eq_zero] at hlen
      simp [hlen]
    · simp [List.any_eq_true]
  · intro h
    unfold ChatStreamChunk.IsComplete
    simp [h]

/-- C9 witness: a chunk with no choices is not complete. -/
theorem ChatStreamChunk_IsComplete_spec_witness :
    ({ ID := "id", Object := "chat.completion.chunk", Created := 0, Model := "m",
       Choices := [], SystemFingerprint := "" } : ChatStreamChunk).IsComplete = false :=
  (ChatStreamChunk_IsComplete_spec _).2 rfl

/-- C7 counterexample: the dynamic ToolChoice field of a chat request is an
untyped value that can hold the JSON number 42, which lies in neither the
string case nor the object case of the claimed tagged variant. -/
theorem ChatRequest_toolChoice_untyped_counterexample :
    toolChoiceNumRequest.ToolChoice = some (GoJson.num 42) ∧
    ¬ TaggedStringOrObject (GoJson.num 42) := by
  refine ⟨rfl, ?_⟩
  rintro (⟨s, hs⟩ | ⟨fields, hf⟩)
  · exact GoJson.noConfusion hs
  · exact GoJson.noConfusion hf

/-- C7 amended: the tool-choice union fields are untyped dynamic values; the
typed helper WithToolChoice always stores the plain string form of the given
choice, which lies in the string case of the claimed variant. -/
theorem ChatRequest_WithToolChoice_stores_string (r : ChatRequest)
    (choice : ToolChoice) :
    (r.WithToolChoice choice).ToolChoice =
      some (GoJson.str (ToolChoice.String choice)) ∧
    TaggedStringOrObject (GoJson.str (ToolChoice.String choice)) :=
  ⟨rfl, Or.inl ⟨_, rfl⟩⟩

/-- C3: the Schema Validator is deterministic — the violation sequence is a
pure function of the (schema, output) pair, so the sequences observed by any
two calls on the same pair are identical, including their path ordering. -/
theorem Validate_deterministic (path : List PathStep) (schema : SchemaNode)
    (output : GoJson) (v₁ v₂ : List ValidationViolation)
    (h₁ : v₁ = Validate path schema output)
    (h₂ : v₂ = Validate path schema output) :
    v₁ = v₂ ∧ v₁.map ValidationViolation.path = v₂.map ValidationViolation.path := by
  subst h₁; subst h₂; exact ⟨rfl, rfl⟩

/-- C3 witness: two evaluations of the validator on a concrete invalid pair
observe the same concrete violation sequence. -/
theorem Validate_deterministic_witness :
    [({ path := [], kind := .WrongType
        message := "expected string but found number" } : ValidationViolation)] =
      [({ path := [], kind := .WrongType
          message := "expected string but found number" } : ValidationViolation)] ∧
    [({ path := [], kind := .WrongType
        message := "expected string but found number" } : ValidationViolation)].map
        ValidationViolation.path =
      [({ path := [], kind := .WrongType
          message := "expected string but found number" } : ValidationViolation)].map
        ValidationViolation.path :=
  Validate_deterministic [] SchemaNode.string (GoJson.num 3) _ _
    (by simp [Validate, wrongTypeViolation, GoJson.typeName])
    (by simp [Validate, wrongTypeViolation, GoJson.typeName])

/-- C2: with repair disabled and an initially invalid output, AttemptRepair
fails with RepairDisabled, an empty attempt history, and zero invocations of
the model collaborator. -/
theorem AttemptRepair_disabled_spec (schema : SchemaNode) (config : RepairConfig)
    (modelCaller : String → String) (parseOutput : String → Option GoJson)
    (output : GoJson) (outputText : String)
    (hdis : config.enabled = false)
    (hinv : Validate [] schema output ≠ []) :
    AttemptRepair schema config modelCaller parseOutput output outputText =
      (.failure { kind := .RepairDisabled, lastInvalidOutput := outputText,
                  attempts := [] }, 0) := by
  unfold AttemptRepair
  rw [RepairLoop]
  simp [hdis, hinv]

/-- C2 witness: a string schema, a numeric output and a disabled config give
RepairDisabled with no attempts and no model calls. -/
theorem AttemptRepair_disabled_spec_witness :
    AttemptRepair SchemaNode.string { enabled := false, maxAttempts := 1 }
        (fun _ => "y") (fun _ => none) (GoJson.num 3) "3" =
      (.failure { kind := .RepairDisabled, lastInvalidOutput := "3",
                  attempts := [] }, 0) :=
  AttemptRepair_disabled_spec _ _ _ _ _ _ rfl (by simp [Validate])

/-- C6: when the initial output already validates, AttemptRepair returns
success with the repaired flag false, an empty attempt history, and the
final output identical to the input text, with zero model calls. -/
theorem AttemptRepair_already_valid_spec (schema : SchemaNode)
    (config : RepairConfig) (modelCaller : String → String)
    (parseOutput : String → Option GoJson) (output : GoJson) (outputText : String)
    (hval : Validate [] schema output = []) :
    AttemptRepair schema config modelCaller parseOutput output outputText =
      (.success { repaired := false, attempts := [], finalOutput := outputText },
       0) := by
  unfold AttemptRepair
  rw [RepairLoop]
  simp [hval, markLastSucceeded]

/-- C6 witness: a string schema with a string output validates immediately
and is returned unchanged with zero attempts. -/
theorem AttemptRepair_already_valid_spec_witness :
    AttemptRepair SchemaNode.string { enabled := true, maxAttempts := 3 }
        (fun _ => "y") (fun _ => none) (GoJson.str "hello") "hello" =
      (.success { repaired := false, attempts := [], finalOutput := "hello" },
       0) :=
  AttemptRepair_already_valid_spec _ _ _ _ _ _ (by simp [Validate])

/-- The repair loop performs at most `maxAttempts - attemptCount` further
model-collaborator invocations. -/
theorem RepairLoop_calls_le (schema : SchemaNode) (config : RepairConfig)
    (modelCaller : String → String) (parseOutput : String → Option GoJson) :
    ∀ (k : Nat) (candidate : GoJson) (text : String)
      (attempts : List RepairAttempt) (attemptCount : Nat),
      config.maxAttempts - attemptCount ≤ k →
      (RepairLoop schema config modelCaller parseOutput candidate text attempts
          attemptCount).2 ≤ k := by
  intro k
  induction k with
  | zero =>
    intro candidate text attempts attemptCount h
    rw [RepairLoop]
    split
    · simp
    · split
      · simp
      · split
        · omega
        · simp
  | succ k ih =>
    intro candidate text attempts attemptCount h
    rw [RepairLoop]
    split
    · simp
    · split
      · simp
      · split
        · rename_i hlt
          dsimp only
          split
          · simp
          · dsimp only
            apply Nat.succ_le_succ
            exact ih _ _ _ _ (by omega)
        · simp

/-- When repair is enabled, the current candidate is invalid, and every
model response parses to a candidate that still fails validation, the loop
ends in RepairExhausted after consuming the whole remaining budget, with the
attempt history filled up to `maxAttempts`. -/
theorem RepairLoop_exhausts (schema : SchemaNode) (config : RepairConfig)
    (modelCaller : String → String) (parseOutput : String → Option GoJson)
    (hen : config.enabled = true)
    (hall : ∀ prompt, ∃ j, parseOutput (modelCaller prompt) = some j ∧
        Validate [] schema j ≠ []) :
    ∀ (k : Nat) (candidate : GoJson) (text : String)
      (attempts : List RepairAttempt) (attemptCount : Nat),
      config.maxAttempts - attemptCount = k →
      attemptCount ≤ config.maxAttempts →
      Validate [] schema candidate ≠ [] →
      attempts.length = attemptCount →
      ∃ e : RepairError,
        RepairLoop schema config modelCaller parseOutput candidate text attempts
            attemptCount = (.failure e, k) ∧
        e.kind = .RepairExhausted ∧
        e.attempts.length = config.maxAttempts := by
  intro k
  induction k with
  | zero =>
    intro candidate text attempts attemptCount hk hle hinv hlen
    rw [RepairLoop]
    simp [hinv, hen]
    have hge : ¬ attemptCount < config.maxAttempts := by omega
    simp [hge]
    omega
  | succ k ih =>
    intro candidate text attempts attemptCount hk hle hinv hlen
    rw [RepairLoop]
    simp [hinv, hen]
    have hlt : attemptCount < config.maxAttempts := by omega
    simp [hlt]
    obtain ⟨j, hj, hjv⟩ :=
      hall (BuildRepairPrompt schema text (Validate [] schema candidate))
    rw [hj]
    dsimp only
    obtain ⟨e, he, hkind, hlenE⟩ := ih j
      (modelCaller (BuildRepairPrompt schema text (Validate [] schema candidate)))
      (attempts ++
        [{ attemptNumber := attemptCount + 1
           violationsBeforeAttempt := Validate [] schema candidate
           promptText := BuildRepairPrompt schema text (Validate [] schema candidate)
           candidateOutput :=
             modelCaller (BuildRepairPrompt schema text (Validate [] schema candidate))
           succeeded := false }])
      (attemptCount + 1) (by omega) (by omega) hjv (by simp [hlen])
    rw [he]
    exact ⟨e, rfl, hkind, hlenE⟩

/-- C1: for every configuration, AttemptRepair performs at most maxAttempts
model-collaborator invocations (Repairing transitions); and when repair is
enabled, the initial output is invalid, and every collaborator response
parses but still fails validation, the session ends in RepairExhausted with
exactly maxAttempts attempts recorded and exactly maxAttempts invocations. -/
theorem AttemptRepair_bounded_spec (schema : SchemaNode) (config : RepairConfig)
    (modelCaller : String → String) (parseOutput : String → Option GoJson)
    (output : GoJson) (outputText : String) :
    (AttemptRepair schema config modelCaller parseOutput output outputText).2 ≤
      config.maxAttempts ∧
    (config.enabled = true →
     Validate [] schema output ≠ [] →
     (∀ prompt, ∃ j, parseOutput (modelCaller prompt) = some j ∧
         Validate [] schema j ≠ []) →
     ∃ e : RepairError,
       AttemptRepair schema config modelCaller parseOutput output outputText =
         (.failure e, config.maxAttempts) ∧
       e.kind = .RepairExhausted ∧
       e.attempts.length = config.maxAttempts) := by
  constructor
  · exact RepairLoop_calls_le schema config modelCaller parseOutput
      config.maxAttempts output outputText [] 0 (by omega)
  · intro hen hinv hall
    exact RepairLoop_exhausts schema config modelCaller parseOutput hen hall
      config.maxAttempts output outputText [] 0 (by omega) (by omega) hinv rfl

/-- C1 witness: a string schema, budget two, and a collaborator whose
responses always parse to an invalid number exhaust the budget with exactly
two recorded attempts and two model calls. -/
theorem AttemptRepair_bounded_spec_witness :
    ∃ e : RepairError,
      AttemptRepair SchemaNode.string { enabled := true, maxAttempts := 2 }
          (fun _ => "x") (fun _ => some (GoJson.num 7)) (GoJson.num 3) "3" =
        (.failure e, 2) ∧
      e.kind = .RepairExhausted ∧
      e.attempts.length = 2 :=
  (AttemptRepair_bounded_spec SchemaNode.string
      { enabled := true, maxAttempts := 2 } (fun _ => "x")
      (fun _ => some (GoJson.num 7)) (GoJson.num 3) "3").2 rfl
    (by simp [Validate])
    (fun prompt => ⟨GoJson.num 7, rfl, by simp [Validate]⟩)

/-- Every string contains itself verbatim. -/
theorem containsStr_self (s : String) : ContainsStr s s :=
  ⟨[], [], by simp⟩

/-- Containment is preserved by prepending text. -/
theorem containsStr_append_left (t s sub : String) (h : ContainsStr s sub) :
    ContainsStr (t ++ s) sub := by
  obtain ⟨pre, post, hd⟩ := h
  exact ⟨t.data ++ pre, post, by simp [String.data_append, hd]⟩

/-- Containment is preserved by appending text. -/
theorem containsStr_append_right (s t sub : String) (h : ContainsStr s sub) :
    ContainsStr (s ++ t) sub := by
  obtain ⟨pre, post, hd⟩ := h
  exact ⟨pre, post ++ t.data, by simp [String.data_append, hd]⟩

/-- Containment is transitive. -/
theorem containsStr_trans {s mid sub : String} (h1 : ContainsStr s mid)
    (h2 : ContainsStr mid sub) : ContainsStr s sub := by
  obtain ⟨p1, q1, hd1⟩ := h1
  obtain ⟨p2, q2, hd2⟩ := h2
  exact ⟨p1 ++ p2, q2 ++ q1, by rw [hd1, hd2]; simp⟩

/-- The rendered violation list contains the rendering of each member. -/
theorem containsStr_renderViolationList {v : ValidationViolation}
    {vs : List ValidationViolation} (h : v ∈ vs) :
    ContainsStr (renderViolationList vs) (renderViolation v) := by
  induction vs with
  | nil => cases h
  | cons x rest ih =>
    rcases List.mem_cons.mp h with rfl | hm
    · exact containsStr_append_right _ _ _
        (containsStr_append_right _ _ _ (containsStr_self _))
    · exact containsStr_append_left _ _ _ (ih hm)

/-- C5: BuildRepairPrompt is deterministic and its output contains,
verbatim, the invalid output text and, for every violation in the list, the
rendered violation path and the violation message. -/
theorem BuildRepairPrompt_spec (schema : SchemaNode) (invalidOutput : String)
    (violations : List ValidationViolation) :
    (BuildRepairPrompt schema invalidOutput violations =
      BuildRepairPrompt schema invalidOutput violations) ∧
    ContainsStr (BuildRepairPrompt schema invalidOutput violations)
      invalidOutput ∧
    ∀ v ∈ violations,
      ContainsStr (BuildRepairPrompt schema invalidOutput violations)
        (renderPath v.path) ∧
      ContainsStr (BuildRepairPrompt schema invalidOutput violations)
        v.message := by
  refine ⟨rfl, ?_, ?_⟩
  · unfold BuildRepairPrompt
    exact containsStr_append_right _ _ _ (containsStr_append_right _ _ _
      (containsStr_append_left _ _ _ (containsStr_self _)))
  · intro v hv
    have hrv : ContainsStr (BuildRepairPrompt schema invalidOutput violations)
        (renderViolation v) := by
      unfold BuildRepairPrompt
      exact containsStr_append_left _ _ _ (containsStr_renderViolationList hv)
    constructor
    · refine containsStr_trans hrv ?_
      unfold renderViolation
      exact containsStr_append_right _ _ _ (containsStr_append_right _ _ _
        (containsStr_append_right _ _ _ (containsStr_append_right _ _ _
          (containsStr_self _))))
    · refine containsStr_trans hrv ?_
      unfold renderViolation
      exact containsStr_append_left _ _ _ (containsStr_self _)

/-- C5 witness: a concrete prompt contains the invalid output and the path
and message of a concrete violation. -/
theorem BuildRepairPrompt_spec_witness :
    ContainsStr
      (BuildRepairPrompt SchemaNode.string "42"
        [{ path := [], kind := .WrongType
           message := "expected string but found number" }]) "42" ∧
    ContainsStr
      (BuildRepairPrompt SchemaNode.string "42"
        [{ path := [], kind := .WrongType
           message := "expected string but found number" }])
      "expected string but found number" :=
  ⟨(BuildRepairPrompt_spec SchemaNode.string "42" _).2.1,
   ((BuildRepairPrompt_spec SchemaNode.string "42" _).2.2
      { path := [], kind := .WrongType
        message := "expected string but found number" } (by simp)).2⟩

/-- Pointwise-equivalent field lists have identical key sequences. -/
theorem jsonFieldsEquiv_keys_eq :
    ∀ {fs gs : List (String × GoJson)}, JsonFieldsEquiv fs gs →
      fs.map Prod.fst = gs.map Prod.fst := by
  intro fs
  induction fs with
  | nil => intro gs h; cases h; rfl
  | cons p rest ih =>
    intro gs h
    cases h with
    | cons hvw hrest => simp [ih hrest]

/-- Lookup in pointwise-equivalent field lists yields related results. -/
theorem jsonFieldsEquiv_lookup :
    ∀ {fs gs : List (String × GoJson)}, JsonFieldsEquiv fs gs → ∀ name,
      (List.lookup name fs = none ∧ List.lookup name gs = none) ∨
      ∃ v w, List.lookup name fs = some v ∧ List.lookup name gs = some w ∧
        JsonKeyEquiv v w := by
  intro fs
  induction fs with
  | nil => intro gs h name; cases h; simp [List.lookup]
  | cons p rest ih =>
    intro gs h name
    obtain ⟨n, v⟩ := p
    cases h with
    | cons hvw hrest =>
      rename_i w gs₂
      by_cases hb : (name == n) = true
      · exact Or.inr ⟨v, w, by simp [List.lookup, hb], by simp [List.lookup, hb], hvw⟩
      · rcases ih hrest name with ⟨h1, h2⟩ | ⟨v₂, w₂, hv, hw, hvw₂⟩
        · exact Or.inl ⟨by simp [List.lookup, hb, h1], by simp [List.lookup, hb, h2]⟩
        · exact Or.inr ⟨v₂, w₂, by simp [List.lookup, hb, hv],
            by simp [List.lookup, hb, hw], hvw₂⟩

/-- Permuting a duplicate-free association list does not change lookups. -/
theorem lookup_eq_of_perm_of_nodupKeys :
    ∀ {l₁ l₂ : List (String × GoJson)}, l₁.Perm l₂ →
      (l₁.map Prod.fst).Nodup → ∀ name,
        List.lookup name l₁ = List.lookup name l₂ := by
  intro l₁ l₂ hp
  induction hp with
  | nil => intro _ _; rfl
  | cons x p ih =>
    intro hnd name
    obtain ⟨k, v⟩ := x
    simp only [List.map_cons, List.nodup_cons] at hnd
    by_cases hb : (name == k) = true <;> simp [List.lookup, hb, ih hnd.2 name]
  | swap x y l =>
    intro hnd name
    obtain ⟨k1, v1⟩ := x
    obtain ⟨k2, v2⟩ := y
    simp only [List.map_cons, List.nodup_cons, List.mem_cons] at hnd
    by_cases h1 : (name == k2) = true <;> by_cases h2 : (name == k1) = true <;>
      simp [List.lookup, h1, h2]
    exact absurd ((eq_of_beq h1).symm.trans (eq_of_beq h2))
      (fun he => hnd.1 (Or.inl he))
  | trans p1 p2 ih1 ih2 =>
    intro hnd name
    rw [ih1 hnd name]
    exact ih2 ((p1.map Prod.fst).nodup_iff.mp hnd) name

/-- Lookup comparison across the full object equivalence: pointwise
equivalence into the middle list, then a key-preserving permutation. -/
theorem objEquiv_lookup {fs mid gs : List (String × GoJson)}
    (hf : JsonFieldsEquiv fs mid) (hperm : mid.Perm gs)
    (hnodup : (fs.map Prod.fst).Nodup) (name : String) :
    (List.lookup name fs = none ∧ List.lookup name gs = none) ∨
    ∃ v w, List.lookup name fs = some v ∧ List.lookup name gs = some w ∧
      JsonKeyEquiv v w := by
  have hmid : List.lookup name mid = List.lookup name gs := by
    apply lookup_eq_of_perm_of_nodupKeys hperm _ name
    rw [← jsonFieldsEquiv_keys_eq hf]
    exact hnodup
  rcases jsonFieldsEquiv_lookup hf name with ⟨h1, h2⟩ | ⟨v, w, hv, hw, hvw⟩
  · exact Or.inl ⟨h1, hmid ▸ h2⟩
  · exact Or.inr ⟨v, w, hv, hmid ▸ hw, hvw⟩

/-- Sorting is invariant under permutation of the input. -/
theorem mergeSort_eq_of_perm_str {l₁ l₂ : List String} (h : l₁.Perm l₂) :
    l₁.mergeSort = l₂.mergeSort :=
  List.eq_of_perm_of_sorted
    ((List.mergeSort_perm l₁ _).trans (h.trans (List.mergeSort_perm l₂ _).symm))
    (List.sorted_mergeSort' l₁) (List.sorted_mergeSort' l₂)

/-- The additional-field violations depend only on the multiset of candidate
keys, not on their order. -/
theorem extraFieldViolations_congr (path : List PathStep) (declared : List String)
    {fs gs : List (String × GoJson)}
    (h : (fs.map Prod.fst).Perm (gs.map Prod.fst)) :
    extraFieldViolations path declared fs = extraFieldViolations path declared gs := by
  unfold extraFieldViolations
  rw [mergeSort_eq_of_perm_str (h.filter _)]

/-- Validation is invariant under reserialization of the candidate output:
equivalent outputs (same data, possibly different object key orders) produce
identical violation sequences, since the traversal consults the candidate
only through key lookups and orders extras canonically.  Stated with an
explicit size bound to drive the induction. -/
theorem validate_inv_aux :
    ∀ (n : Nat) (schema : SchemaNode), sizeOf schema < n →
      ∀ (path : List PathStep) (a b : GoJson), JsonKeyEquiv a b →
        Validate path schema a = Validate path schema b := by
  intro n
  induction n with
  | zero => intro schema h; exact absurd h (Nat.not_lt_zero _)
  | succ n ih =>
    intro schema hs path a b hab
    cases hab with
    | str s => rfl
    | num m => rfl
    | bool c => rfl
    | null => rfl
    | arr hxy =>
      rename_i xs ys
      cases schema with
      | array items =>
        have hitems : sizeOf items < n := by
          simp only [SchemaNode.array.sizeOf_spec] at hs; omega
        have key : ∀ (xs ys : List GoJson), JsonListEquiv xs ys → ∀ i,
            validateItems path items xs i = validateItems path items ys i := by
          intro xs
          induction xs with
          | nil => intro ys h i; cases h; rfl
          | cons x rest ihx =>
            intro ys h i
            cases h with
            | cons hx hrest =>
              conv_lhs => rw [validateItems]
              conv_rhs => rw [validateItems]
              rw [ih items hitems _ _ _ hx, ihx _ hrest (i + 1)]
        conv_lhs => rw [Validate]
        conv_rhs => rw [Validate]
        exact key xs ys hxy 0
      | object props required addl =>
        simp [Validate, wrongTypeViolation, GoJson.typeName]
      | string => simp [Validate, wrongTypeViolation, GoJson.typeName]
      | number => simp [Validate, wrongTypeViolation, GoJson.typeName]
      | boolean => simp [Validate, wrongTypeViolation, GoJson.typeName]
      | enum allowed => simp [Validate, wrongTypeViolation, GoJson.typeName]
    | obj hf hperm hnodup =>
      rename_i fs mid gs
      cases schema with
      | object props required addl =>
        have hkeys : (fs.map Prod.fst).Perm (gs.map Prod.fst) := by
          rw [jsonFieldsEquiv_keys_eq hf]
          exact hperm.map Prod.fst
        have hprops : ∀ (props₂ : List (String × SchemaNode)), sizeOf props₂ < n →
            ∀ (path₂ : List PathStep),
              validateProperties path₂ props₂ required fs =
                validateProperties path₂ props₂ required gs := by
          intro props₂
          induction props₂ with
          | nil => intro _ _; rw [validateProperties, validateProperties]
          | cons p rest ihp =>
            intro hsz path₂
            obtain ⟨name, child⟩ := p
            conv_lhs => rw [validateProperties]
            conv_rhs => rw [validateProperties]
            have hchild : sizeOf child < n := by
              simp only [List.cons.sizeOf_spec, Prod.mk.sizeOf_spec] at hsz; omega
            have hrest : sizeOf rest < n := by
              simp only [List.cons.sizeOf_spec, Prod.mk.sizeOf_spec] at hsz; omega
            rcases objEquiv_lookup hf hperm hnodup name with
              ⟨h1, h2⟩ | ⟨v, w, hv, hw, hvw⟩
            · rw [h1, h2, ihp hrest path₂]
            · rw [hv, hw]
              dsimp only
              rw [ih child hchild _ _ _ hvw, ihp hrest path₂]
        conv_lhs => rw [Validate]
        conv_rhs => rw [Validate]
        have hsz : sizeOf props < n := by
          simp only [SchemaNode.object.sizeOf_spec] at hs; omega
        rw [hprops props hsz path]
        cases addl with
        | true => rfl
        | false =>
          rw [extraFieldViolations_congr path _ hkeys]
      | array items => simp [Validate, wrongTypeViolation, GoJson.typeName]
      | string => simp [Validate, wrongTypeViolation, GoJson.typeName]
      | number => simp [Validate, wrongTypeViolation, GoJson.typeName]
      | boolean => simp [Validate, wrongTypeViolation, GoJson.typeName]
      | enum allowed => simp [Validate, wrongTypeViolation, GoJson.typeName]

/-- C4: the violation sequence produced by Validate is a function of the
schema-driven depth-first traversal alone — two candidate outputs holding
the same data, however their object keys were ordered by serialization,
yield identical violation sequences, including identical path ordering. -/
theorem Validate_schema_order_spec (schema : SchemaNode) (path : List PathStep)
    (a b : GoJson) (hab : JsonKeyEquiv a b) :
    Validate path schema a = Validate path schema b :=
  validate_inv_aux (sizeOf schema + 1) schema (Nat.lt_succ_self _) path a b hab

/-- C4 witness: a two-property object schema validates a candidate and its
key-swapped reserialization to the identical violation sequence. -/
theorem Validate_schema_order_spec_witness :
    Validate []
        (SchemaNode.object [("name", SchemaNode.string), ("age", SchemaNode.number)]
          ["name", "age"] false)
        (GoJson.obj [("name", GoJson.str "A"), ("age", GoJson.bool true)]) =
      Validate []
        (SchemaNode.object [("name", SchemaNode.string), ("age", SchemaNode.number)]
          ["name", "age"] false)
        (GoJson.obj [("age", GoJson.bool true), ("name", GoJson.str "A")]) :=
  Validate_schema_order_spec _ [] _ _
    (JsonKeyEquiv.obj
      (JsonFieldsEquiv.cons (JsonKeyEquiv.str "A")
        (JsonFieldsEquiv.cons (JsonKeyEquiv.bool true) JsonFieldsEquiv.nil))
      (List.Perm.swap _ _ _)
      (by simp))

end GoAiTypes
